import Mathlib

/-
Verification of the sequencing and timing-alignment engine of
src/generator.py (RelaxVideoGenerator).

The embedding models the program state of create_audio_track,
create_video_track and generate_music_video.  External media libraries
(pydub, moviepy) are treated as oracles:

* a decode oracle gives, for an audio filename, the nominal duration in
  milliseconds of the decoded segment, or signals a decode exception;
* pydub append with a crossfade produces a buffer of length
  len(a) + len(b) - crossfade and raises when the crossfade exceeds the
  length of either operand; the combined buffer is therefore tracked by
  its length in milliseconds;
* the video clip loader and compositor are collapsed into a per-iteration
  success oracle, and random.choice into an index oracle;
* filesystem writes and removals are recorded as an ordered event list.

random.shuffle is modelled by an arbitrary shuffle function, constrained
in theorems to produce a permutation of its input.  os.listdir is a fixed
duplicate-free list of directory entries.
-/

/-- Fixed crossfade of 3 seconds (src/generator.py line 44). -/
def crossfadeMs : Nat := 3000

/-- Target duration of the audio loop: 5 minutes in ms (line 46). -/
def targetMs : Nat := 5 * 60 * 1000

/-- Replace one character by another everywhere, as the python
str.replace with single-character arguments does (line 81). -/
def replaceChar (a b : Char) (l : List Char) : List Char :=
  l.map (fun ch => if ch = a then b else ch)

/-- Index of the last dot of the name, scanning with an accumulator. -/
def lastDotIdxAux : List Char → Nat → Option Nat → Option Nat
  | [], _, acc => acc
  | c :: rest, i, acc => lastDotIdxAux rest (i + 1) (if c = '.' then some i else acc)

/-- Index of the last dot of the name, if any. -/
def lastDotIdx (l : List Char) : Option Nat :=
  lastDotIdxAux l 0 none

/-- Root part of os.path.splitext for a plain filename (no separators):
cut at the last dot provided a character that is not a dot stands before
it; a name made only of leading dots keeps its full form (line 81). -/
def splitextRoot (l : List Char) : List Char :=
  match lastDotIdx l with
  | none => l
  | some i => if (l.take i).any (fun c => c ≠ '.') then l.take i else l

/-- Python str.title restricted to ASCII: the first alphabetic character
of every alphabetic run is uppercased, the rest lowercased (line 81). -/
def titleCaseGo : Bool → List Char → List Char
  | _, [] => []
  | prevAlpha, c :: rest =>
    if c.isAlpha then
      (if prevAlpha then c.toLower else c.toUpper) :: titleCaseGo true rest
    else
      c :: titleCaseGo false rest

/-- Song title derivation (src/generator.py line 81): strip the
extension, replace underscores then hyphens by spaces, title-case. -/
def songTitle (f : String) : String :=
  ⟨titleCaseGo false (replaceChar '-' ' ' (replaceChar '_' ' ' (splitextRoot f.data)))⟩

/-- Suffix test on the lowercased filename, as f.lower().endswith. -/
def endsWithLower (f : String) (suf : List Char) : Bool :=
  suf.isSuffixOf (f.data.map Char.toLower)

/-- Audio eligibility (lines 30 and 49): case-insensitive extension
.wav, .mp3 or .m4a. -/
def isEligible (f : String) : Bool :=
  endsWithLower f ".wav".data || endsWithLower f ".mp3".data || endsWithLower f ".m4a".data

/-- Video eligibility (line 128): .mp4, .mov, .avi or .mkv. -/
def isVideoEligible (f : String) : Bool :=
  endsWithLower f ".mp4".data || endsWithLower f ".mov".data ||
    endsWithLower f ".avi".data || endsWithLower f ".mkv".data

/-- State of the audio sequencing loop of create_audio_track
(lines 38-88).  The pool is audio_files, used the used_files set in
insertion order (it is only queried through membership), combinedLen the
length in ms of combined_audio, and skippedUsed counts how many times
the defensive already-used branch of lines 56-58 fired. -/
structure LoopState where
  pool : List String
  used : List String
  totalDurationMs : Nat
  songTitles : List String
  combinedLen : Nat
  skippedUsed : Nat
deriving DecidableEq

/-- Environment of one create_audio_track run: the directory listing,
the shuffle used by random.shuffle, and the decode oracle standing for
the per-extension pydub entry points of lines 63-68 (none models a
raised decode exception). -/
structure Ctx where
  dir : List String
  shuffle : List String → List String
  decode : String → Option Nat

/-- The refill pool of line 49: rescan the directory, keep eligible
files not yet in the used set. -/
def refillList (c : Ctx) (used : List String) : List String :=
  c.dir.filter (fun f => isEligible f && decide (f ∉ used))

/-- The pool a loop iteration actually pops from: the current pool, or,
when it is empty, the shuffled refill pool of lines 47-53. -/
def effectivePool (c : Ctx) (s : LoopState) : List String :=
  match s.pool with
  | [] => c.shuffle (refillList c s.used)
  | f :: rest => f :: rest

/-- State after a successful append of file f with nominal duration d
and new combined length newLen (lines 73-84): full nominal duration is
added to the total, the title is appended, the file marked used. -/
def appendSuccess (s : LoopState) (f : String) (rest : List String) (d newLen : Nat) :
    LoopState :=
  { s with pool := rest,
           combinedLen := newLen,
           totalDurationMs := s.totalDurationMs + d,
           songTitles := s.songTitles ++ [songTitle f],
           used := s.used ++ [f] }

/-- Body of one loop iteration after file f was popped (lines 55-88).
The defensive used check comes first; then the extension dispatch; a
decode exception, an unsupported extension, or a pydub crossfade error
(crossfade longer than either operand) leave everything but the pool
unchanged; a successful append goes through appendSuccess, with no
crossfade when the combined buffer is empty (falsy). -/
def processFile (c : Ctx) (s : LoopState) (f : String) (rest : List String) : LoopState :=
  if f ∈ s.used then
    { s with pool := rest, skippedUsed := s.skippedUsed + 1 }
  else if isEligible f then
    match c.decode f with
    | none => { s with pool := rest }
    | some d =>
      if 0 < s.combinedLen then
        if crossfadeMs ≤ s.combinedLen ∧ crossfadeMs ≤ d then
          appendSuccess s f rest d (s.combinedLen + d - crossfadeMs)
        else
          { s with pool := rest }
      else
        appendSuccess s f rest d d
  else
    { s with pool := rest }

/-- Result of one check of the while condition plus one body execution:
done when the loop exits (target reached, or refill empty at line 52),
cont when another iteration follows. -/
inductive StepRes where
  | done (s : LoopState)
  | cont (s : LoopState)
deriving DecidableEq

/-- One iteration of the while loop of lines 46-88. -/
def loopStep (c : Ctx) (s : LoopState) : StepRes :=
  if s.totalDurationMs < targetMs then
    match effectivePool c s with
    | [] => StepRes.done { s with pool := [] }
    | f :: rest => StepRes.cont (processFile c s f rest)
  else
    StepRes.done s

/-- Fuel-bounded execution of the whole loop: some final state when the
loop exits within the given fuel, none when the fuel runs out. -/
def runLoop (c : Ctx) : Nat → LoopState → Option LoopState
  | 0, _ => none
  | fuel + 1, s =>
    match loopStep c s with
    | StepRes.done s2 => some s2
    | StepRes.cont s2 => runLoop c fuel s2

/-- Initial loop state of lines 28-44: shuffled eligible listing, empty
used set, empty buffer, zero total, no titles. -/
def initState (c : Ctx) : LoopState :=
  { pool := c.shuffle (c.dir.filter (fun f => isEligible f)),
    used := [],
    totalDurationMs := 0,
    songTitles := [],
    combinedLen := 0,
    skippedUsed := 0 }

/-- States reachable from a start state by iterating continuing loop
steps. -/
inductive Reaches (c : Ctx) : LoopState → LoopState → Prop
  | refl (s : LoopState) : Reaches c s s
  | step {s t u : LoopState} : Reaches c s t → loopStep c t = StepRes.cont u → Reaches c s u

/-- Environment of one create_video_track run (lines 127-170): the
directory listing, the random.choice oracle giving the chosen index per
iteration, and the per-iteration success oracle standing for the clip
load and composition of lines 140-161 (false models a caught
exception). -/
structure VideoCtx where
  clips : List String
  choose : Nat → Nat
  clipOk : Nat → String → Bool

/-- The for loop of lines 137-161, iterating over the titles with their
index: returns the number of iterations executed and the composed
(clip, title) segments in order; a failed iteration is skipped. -/
def videoLoopFrom (v : VideoCtx) (clipFiles : List String) : Nat → List String → Nat × List (String × String)
  | _, [] => (0, [])
  | i, t :: rest =>
    if v.clipOk i (clipFiles.getD (v.choose i % clipFiles.length) "") then
      ((videoLoopFrom v clipFiles (i + 1) rest).1 + 1,
        (clipFiles.getD (v.choose i % clipFiles.length) "", t) ::
          (videoLoopFrom v clipFiles (i + 1) rest).2)
    else
      ((videoLoopFrom v clipFiles (i + 1) rest).1 + 1, (videoLoopFrom v clipFiles (i + 1) rest).2)

/-- Result of create_video_track: a raised ValueError or the composed
segments. -/
inductive VideoRes where
  | err (msg : String)
  | ok (segs : List (String × String))
deriving DecidableEq

/-- create_video_track (lines 113-170): filter the clip directory,
raise on an empty listing, run the title loop, raise when nothing was
composed. -/
def create_video_track (v : VideoCtx) (titles : List String) : VideoRes :=
  let clipFiles := v.clips.filter (fun f => isVideoEligible f)
  if clipFiles = [] then VideoRes.err "no video files"
  else
    let r := videoLoopFrom v clipFiles 0 titles
    if r.2 = [] then VideoRes.err "no clips composed" else VideoRes.ok r.2

/-- A filesystem side effect: creation or deletion of a named file. -/
inductive FsEvent where
  | write (name : String)
  | remove (name : String)
deriving DecidableEq

/-- Result of create_audio_track: a raised ValueError or the final loop
state together with the artifact path. -/
inductive AudioRes where
  | err (msg : String)
  | ok (finalState : LoopState) (path : String)
deriving DecidableEq

/-- Result plus the filesystem events the call performed, in order. -/
structure AudioOutcome where
  result : AudioRes
  events : List FsEvent
deriving DecidableEq

/-- Name of the durable audio artifact (line 99). -/
def audioOutputPath (fmt : String) : String :=
  "combined_audio." ++ fmt

/-- create_audio_track (lines 15-111): raise when no eligible file
exists, run the sequencing loop, export the temporary debug WAV
unconditionally (lines 92-96), then export the artifact for mp3 or m4a
or raise ValueError for any other format (lines 99-109).  none stands
for a run whose loop exceeded the fuel. -/
def create_audio_track (c : Ctx) (fmt : String) (fuel : Nat) : Option AudioOutcome :=
  if c.dir.filter (fun f => isEligible f) = [] then
    some { result := AudioRes.err "no audio files", events := [] }
  else
    match runLoop c fuel (initState c) with
    | none => none
    | some s =>
      if fmt = "mp3" then
        some { result := AudioRes.ok s (audioOutputPath fmt),
               events := [FsEvent.write "temp_combined_audio.wav",
                          FsEvent.write (audioOutputPath fmt)] }
      else if fmt = "m4a" then
        some { result := AudioRes.ok s (audioOutputPath fmt),
               events := [FsEvent.write "temp_combined_audio.wav",
                          FsEvent.write (audioOutputPath fmt)] }
      else
        some { result := AudioRes.err "unsupported format",
               events := [FsEvent.write "temp_combined_audio.wav"] }

/-- Environment of one generate_music_video run.  encodeOk models
whether the audio attach and final render of lines 206-209 succeed;
those calls are not guarded by any handler in the source. -/
structure GenCtx where
  audio : Ctx
  video : VideoCtx
  fmt : String
  encodeOk : Bool
  outputFilename : String

/-- Observable outcome of generate_music_video: the filesystem events
in order, and whether an uncaught exception propagated out. -/
structure GenOutcome where
  events : List FsEvent
  raised : Bool
deriving DecidableEq

/-- generate_music_video (lines 173-218): a ValueError from the audio
stage is caught and the function returns with no cleanup (lines
189-193); a ValueError from the video stage is caught, the audio
artifact removed, and the function returns (lines 197-202); otherwise
the final render writes the output and the artifact is removed (lines
205-214), unless the unguarded attach or render raises, in which case
the exception propagates with no removal. -/
def generate_music_video (g : GenCtx) (fuel : Nat) : Option GenOutcome :=
  match create_audio_track g.audio g.fmt fuel with
  | none => none
  | some a =>
    match a.result with
    | AudioRes.err _ => some { events := a.events, raised := false }
    | AudioRes.ok s path =>
      match create_video_track g.video s.songTitles with
      | VideoRes.err _ => some { events := a.events ++ [FsEvent.remove path], raised := false }
      | VideoRes.ok _ =>
        if g.encodeOk then
          some { events := a.events ++ [FsEvent.write g.outputFilename, FsEvent.remove path],
                 raised := false }
        else
          some { events := a.events, raised := true }

/-- Loop invariant tying a reachable state to the program text: the
pool never holds duplicates, every pooled file is an eligible directory
entry not yet used, the used list (which records exactly the
successfully appended files, in append order) has no duplicates, the
titles are the derived titles of the used files in order, and the
defensive already-used branch never fired. -/
structure LoopInv (c : Ctx) (s : LoopState) : Prop where
  poolNodup : s.pool.Nodup
  poolMem : ∀ f ∈ s.pool, f ∈ c.dir ∧ isEligible f = true ∧ f ∉ s.used
  usedNodup : s.used.Nodup
  titles : s.songTitles = s.used.map songTitle
  skipped : s.skippedUsed = 0

/-- Well-formedness of the environment: directory listings hold
distinct names and random.shuffle permutes its input. -/
structure CtxOk (c : Ctx) : Prop where
  dirNodup : c.dir.Nodup
  shufflePerm : ∀ l, (c.shuffle l).Perm l

/-- Every eligible file decodes successfully with a duration of at
least the crossfade, so every pop makes progress. -/
def AllGood (c : Ctx) : Prop :=
  ∀ f, f ∈ c.dir → isEligible f = true → ∃ d, c.decode f = some d ∧ crossfadeMs ≤ d

/-- The combined buffer is empty or at least one crossfade long. -/
def GoodLen (s : LoopState) : Prop :=
  s.combinedLen = 0 ∨ crossfadeMs ≤ s.combinedLen

/-- Number of eligible files not yet used: the termination measure. -/
def unusedCount (c : Ctx) (s : LoopState) : Nat :=
  (refillList c s.used).length

/-- Concrete environment: one good audio file and one ineligible file;
the identity shuffle; the good file decodes to 400000 ms. -/
def cW : Ctx :=
  { dir := ["a.wav", "notes.txt"],
    shuffle := fun l => l,
    decode := fun f => if f = "a.wav" then some 400000 else none }

/-- State of cW after its single successful append. -/
def sW1 : LoopState :=
  { pool := [], used := ["a.wav"], totalDurationMs := 400000,
    songTitles := ["A"], combinedLen := 400000, skippedUsed := 0 }

/-- Concrete environment whose single eligible file always fails to
decode. -/
def cBad : Ctx :=
  { dir := ["bad.mp3"], shuffle := fun l => l, decode := fun _ => none }

/-- The looping state of cBad: empty pool, nothing used, zero total. -/
def s1Bad : LoopState :=
  { pool := [], used := [], totalDurationMs := 0,
    songTitles := [], combinedLen := 0, skippedUsed := 0 }

/-- Concrete environment for the crossfade bookkeeping claim. -/
def cW4 : Ctx :=
  { dir := ["a.wav", "b.wav"],
    shuffle := fun l => l,
    decode := fun f => if f = "b.wav" then some 4000 else some 400000 }

/-- Mid-run state for the crossfade bookkeeping claim: one file already
appended, 5000 ms in the buffer, b.wav next in the pool. -/
def sW4 : LoopState :=
  { pool := ["b.wav"], used := ["a.wav"], totalDurationMs := 5000,
    songTitles := ["A"], combinedLen := 5000, skippedUsed := 0 }

/-- Concrete video environment: one clip that always loads. -/
def vW : VideoCtx :=
  { clips := ["c.mp4"], choose := fun _ => 0, clipOk := fun _ _ => true }

/-- Full pipeline environment with a succeeding final render. -/
def gGood : GenCtx :=
  { audio := cW, video := vW, fmt := "mp3", encodeOk := true,
    outputFilename := "music_video.mp4" }

/-- Full pipeline environment whose final render raises. -/
def gEncFail : GenCtx :=
  { audio := cW, video := vW, fmt := "mp3", encodeOk := false,
    outputFilename := "music_video.mp4" }

/-- Full pipeline environment with no eligible audio file. -/
def gNoAudio : GenCtx :=
  { audio := { dir := ["notes.txt"], shuffle := fun l => l, decode := fun _ => none },
    video := vW, fmt := "mp3", encodeOk := true,
    outputFilename := "music_video.mp4" }

/-- Membership in the refill pool spelt out. -/
lemma mem_refill {c : Ctx} {used : List String} {g : String} :
    g ∈ refillList c used ↔ g ∈ c.dir ∧ isEligible g = true ∧ g ∉ used := by
  simp [refillList, List.mem_filter, and_assoc]

/-- The refill pool of a duplicate-free listing is duplicate-free. -/
lemma refill_nodup {c : Ctx} (hOk : CtxOk c) (used : List String) :
    (refillList c used).Nodup :=
  hOk.dirNodup.filter _

/-- The list a loop iteration pops from is duplicate-free and holds
only eligible, unused directory entries. -/
lemma effectivePool_spec {c : Ctx} {s : LoopState} {f : String} {rest : List String}
    (hOk : CtxOk c) (hinv : LoopInv c s) (h : effectivePool c s = f :: rest) :
    (f :: rest).Nodup ∧ ∀ g ∈ f :: rest, g ∈ c.dir ∧ isEligible g = true ∧ g ∉ s.used := by
  cases hp : s.pool with
  | nil =>
    simp only [effectivePool, hp] at h
    have hperm : (f :: rest).Perm (refillList c s.used) := h ▸ hOk.shufflePerm _
    refine ⟨hperm.nodup_iff.mpr (refill_nodup hOk s.used), ?_⟩
    intro g hg
    exact mem_refill.mp (hperm.subset hg)
  | cons a t =>
    simp only [effectivePool, hp] at h
    refine ⟨h ▸ hp ▸ hinv.poolNodup, ?_⟩
    intro g hg
    exact hinv.poolMem g (hp ▸ h ▸ hg)

/-- The initial state satisfies the loop invariant. -/
lemma inv_init {c : Ctx} (hOk : CtxOk c) : LoopInv c (initState c) := by
  refine ⟨?_, ?_, List.nodup_nil, rfl, rfl⟩
  · exact (hOk.shufflePerm _).nodup_iff.mpr (hOk.dirNodup.filter _)
  · intro g hg
    have hm := (hOk.shufflePerm _).subset hg
    have := List.mem_filter.mp hm
    exact ⟨this.1, this.2, by simp [initState]⟩

/-- Inversion of a continuing loop step: the while condition held, a
file was popped, and the body produced the new state. -/
lemma loopStep_cont {c : Ctx} {s s2 : LoopState} (h : loopStep c s = StepRes.cont s2) :
    s.totalDurationMs < targetMs ∧
      ∃ f rest, effectivePool c s = f :: rest ∧ s2 = processFile c s f rest := by
  unfold loopStep at h
  split at h
  case isTrue hlt =>
    split at h
    · exact absurd h (by simp)
    case _ f rest heq =>
      injection h with h2
      exact ⟨hlt, f, rest, heq, h2.symm⟩
  case isFalse hlt => exact absurd h (by simp)

/-- Case analysis of the loop body for a file that is not yet used:
either nothing but the pool changes (decode exception, unsupported
extension, or crossfade error), or the append succeeds. -/
lemma processFile_cases {c : Ctx} {s : LoopState} (f : String) (rest : List String)
    (h1 : f ∉ s.used) :
    processFile c s f rest = { s with pool := rest } ∨
      ∃ d, c.decode f = some d ∧
        (processFile c s f rest = appendSuccess s f rest d (s.combinedLen + d - crossfadeMs) ∨
         processFile c s f rest = appendSuccess s f rest d d) := by
  by_cases h2 : isEligible f = true
  · cases hd : c.decode f with
    | none => left; simp [processFile, h1, h2, hd]
    | some d =>
      by_cases h3 : 0 < s.combinedLen
      · by_cases h4 : crossfadeMs ≤ s.combinedLen ∧ crossfadeMs ≤ d
        · right
          exact ⟨d, rfl, Or.inl (by simp [processFile, h1, h2, hd, h3, h4])⟩
        · left; simp [processFile, h1, h2, hd, h3, h4]
      · right
        exact ⟨d, rfl, Or.inr (by simp [processFile, h1, h2, hd, h3])⟩
  · left; simp [processFile, h1, h2]

/-- Appending a fresh element keeps a list duplicate-free. -/
lemma nodup_append_singleton {l : List String} {a : String}
    (h1 : l.Nodup) (h2 : a ∉ l) : (l ++ [a]).Nodup := by
  induction l with
  | nil => simp
  | cons b t ih =>
    simp only [List.mem_cons, not_or] at h2
    obtain ⟨hb, ht⟩ := List.nodup_cons.mp h1
    rw [List.cons_append]
    refine List.nodup_cons.mpr ⟨?_, ih ht h2.2⟩
    intro hmem
    rcases List.mem_append.mp hmem with hm | hm
    · exact hb hm
    · exact h2.1 (List.mem_singleton.mp hm).symm

/-- One continuing loop step preserves the loop invariant. -/
lemma inv_step {c : Ctx} {s s2 : LoopState} (hOk : CtxOk c)
    (hinv : LoopInv c s) (h : loopStep c s = StepRes.cont s2) : LoopInv c s2 := by
  obtain ⟨hlt, f, rest, hp, rfl⟩ := loopStep_cont h
  obtain ⟨hnd, hmem⟩ := effectivePool_spec hOk hinv hp
  have hf := hmem f (List.mem_cons_self f rest)
  obtain ⟨hfrest, hrestnd⟩ := List.nodup_cons.mp hnd
  have hsucc : ∀ d nl, LoopInv c (appendSuccess s f rest d nl) := by
    intro d nl
    refine ⟨hrestnd, ?_, ?_, ?_, hinv.skipped⟩
    · intro g hg
      have hgm := hmem g (List.mem_cons_of_mem f hg)
      refine ⟨hgm.1, hgm.2.1, ?_⟩
      simp only [appendSuccess, List.mem_append, List.mem_singleton, not_or]
      exact ⟨hgm.2.2, fun hgf => hfrest (hgf ▸ hg)⟩
    · exact nodup_append_singleton hinv.usedNodup hf.2.2
    · simp [appendSuccess, hinv.titles]
  rcases processFile_cases f rest hf.2.2 with heq | ⟨d, _, heq | heq⟩
  · rw [heq]
    exact ⟨hrestnd, fun g hg => hmem g (List.mem_cons_of_mem f hg),
           hinv.usedNodup, hinv.titles, hinv.skipped⟩
  · rw [heq]; exact hsucc _ _
  · rw [heq]; exact hsucc _ _

/-- Every state reachable from the initial state satisfies the loop
invariant. -/
lemma reaches_inv {c : Ctx} {s : LoopState} (hOk : CtxOk c)
    (h : Reaches c (initState c) s) : LoopInv c s := by
  induction h with
  | refl => exact inv_init hOk
  | step _ hstep ih => exact inv_step hOk ih hstep

/-- A continuing loop step never decreases the running total. -/
lemma total_mono {c : Ctx} {s s2 : LoopState} (h : loopStep c s = StepRes.cont s2) :
    s.totalDurationMs ≤ s2.totalDurationMs := by
  obtain ⟨_, f, rest, _, rfl⟩ := loopStep_cont h
  by_cases h1 : f ∈ s.used
  · simp [processFile, h1]
  · rcases processFile_cases f rest h1 with heq | ⟨d, _, heq | heq⟩ <;>
      rw [heq] <;> simp [appendSuccess]


/-- When the popped file is fresh, eligible, decodes, and both the
buffer (unless empty) and the segment are at least one crossfade long,
the body takes the successful append branch. -/
lemma pf_success {c : Ctx} {s : LoopState} {f : String} {d : Nat} (rest : List String)
    (h1 : f ∉ s.used) (h2 : isEligible f = true) (h3 : c.decode f = some d)
    (h4 : crossfadeMs ≤ d) (h5 : GoodLen s) :
    processFile c s f rest =
      appendSuccess s f rest d
        (if 0 < s.combinedLen then s.combinedLen + d - crossfadeMs else d) := by
  rcases h5 with h5 | h5
  · have h0 : ¬ 0 < s.combinedLen := by omega
    simp [processFile, h1, h2, h3, h0]
  · have h0 : 0 < s.combinedLen := by
      have hc : (3000 : Nat) ≤ s.combinedLen := h5
      omega
    simp [processFile, h1, h2, h3, h0, h4, h5]

/-- Marking one more file used shrinks the refill pool to the files
different from it. -/
lemma refill_append_singleton (c : Ctx) (used : List String) (f : String) :
    refillList c (used ++ [f]) = (refillList c used).filter (fun g => g != f) := by
  unfold refillList
  rw [List.filter_filter]
  apply List.filter_congr
  intro g _
  by_cases hgf : g = f <;> by_cases hgu : g ∈ used <;>
    simp [hgf, hgu, List.mem_append]

/-- Dropping one present element of a duplicate-free list shortens it
by exactly one. -/
lemma filter_ne_length {l : List String} {f : String} (hnd : l.Nodup) (hf : f ∈ l) :
    (l.filter (fun g => g != f)).length + 1 = l.length := by
  rw [← List.Nodup.erase_eq_filter hnd f]
  exact List.length_erase_add_one hf

/-- Under an all-good decode oracle, every continuing step is a
successful append: the invariants are preserved and the number of
unused eligible files drops by one. -/
lemma good_step {c : Ctx} {s s2 : LoopState} (hOk : CtxOk c) (hg : AllGood c)
    (hinv : LoopInv c s) (hlen : GoodLen s) (h : loopStep c s = StepRes.cont s2) :
    LoopInv c s2 ∧ GoodLen s2 ∧ unusedCount c s2 + 1 = unusedCount c s := by
  obtain ⟨hlt, f, rest, hp, hs2⟩ := loopStep_cont h
  obtain ⟨hnd, hmem⟩ := effectivePool_spec hOk hinv hp
  have hf := hmem f (List.mem_cons_self f rest)
  obtain ⟨d, hd, hdge⟩ := hg f hf.1 hf.2.1
  have hps := pf_success rest hf.2.2 hf.2.1 hd hdge hlen
  refine ⟨inv_step hOk hinv h, ?_, ?_⟩
  · rw [hs2, hps]
    unfold GoodLen appendSuccess
    right
    by_cases h0 : 0 < s.combinedLen
    · rcases hlen with hz | hge
      · omega
      · have hc1 : (3000 : Nat) ≤ s.combinedLen := hge
        have hc2 : (3000 : Nat) ≤ d := hdge
        simp only [if_pos h0]
        show (3000 : Nat) ≤ s.combinedLen + d - 3000
        omega
    · simp only [if_neg h0]
      exact hdge
  · rw [hs2, hps]
    show (refillList c (s.used ++ [f])).length + 1 = (refillList c s.used).length
    rw [refill_append_singleton]
    exact filter_ne_length (refill_nodup hOk s.used) (mem_refill.mpr hf)

/-- A loop iteration below the target with a non-empty effective pool
continues with the body applied to the popped file. -/
lemma loopStep_pop {c : Ctx} {s : LoopState} {f : String} {rest : List String}
    (hlt : s.totalDurationMs < targetMs) (hp : effectivePool c s = f :: rest) :
    loopStep c s = StepRes.cont (processFile c s f rest) := by
  unfold loopStep
  rw [if_pos hlt, hp]

/-- Unfolding of one fuelled loop round. -/
lemma runLoop_succ (c : Ctx) (fuel : Nat) (s : LoopState) :
    runLoop c (fuel + 1) s =
      match loopStep c s with
      | StepRes.done s2 => some s2
      | StepRes.cont s2 => runLoop c fuel s2 := rfl

/-- Under an all-good decode oracle the loop exits within a fuel of one
more than the number of unused eligible files. -/
lemma runLoop_terminates {c : Ctx} (hOk : CtxOk c) (hg : AllGood c) :
    ∀ n s, LoopInv c s → GoodLen s → unusedCount c s ≤ n →
      ∃ s2, runLoop c (n + 1) s = some s2 := by
  intro n
  induction n with
  | zero =>
    intro s hinv hlen hcnt
    cases hstep : loopStep c s with
    | done s2 =>
      refine ⟨s2, ?_⟩
      rw [runLoop_succ, hstep]
    | cont s2 =>
      obtain ⟨_, _, hdec⟩ := good_step hOk hg hinv hlen hstep
      omega
  | succ k ih =>
    intro s hinv hlen hcnt
    cases hstep : loopStep c s with
    | done s2 =>
      refine ⟨s2, ?_⟩
      rw [runLoop_succ, hstep]
    | cont s2 =>
      obtain ⟨hinv2, hlen2, hdec⟩ := good_step hOk hg hinv hlen hstep
      obtain ⟨s3, h3⟩ := ih s2 hinv2 hlen2 (by omega)
      refine ⟨s3, ?_⟩
      rw [runLoop_succ, hstep]
      exact h3

/-- Before anything is used the refill pool is the eligible listing. -/
lemma refill_empty_used (c : Ctx) :
    refillList c ([] : List String) = c.dir.filter (fun f => isEligible f) := by
  unfold refillList
  apply List.filter_congr
  intro g _
  simp

/-- The iteration count of the video loop equals the number of titles
and the composed segment count never exceeds it. -/
lemma videoLoopFrom_spec (v : VideoCtx) (clipFiles : List String) :
    ∀ (titles : List String) (i : Nat),
      (videoLoopFrom v clipFiles i titles).1 = titles.length ∧
        (videoLoopFrom v clipFiles i titles).2.length ≤ titles.length := by
  intro titles
  induction titles with
  | nil => intro i; simp [videoLoopFrom]
  | cons t rest ih =>
    intro i
    obtain ⟨h1, h2⟩ := ih (i + 1)
    unfold videoLoopFrom
    by_cases h : v.clipOk i (clipFiles.getD (v.choose i % clipFiles.length) "") = true
    · rw [if_pos h]
      constructor
      · simp only [List.length_cons]
        omega
      · simp only [List.length_cons]
        exact Nat.succ_le_succ h2
    · rw [if_neg h]
      constructor
      · simp only [List.length_cons]
        omega
      · simp only [List.length_cons]
        exact Nat.le_succ_of_le h2

/-- The audio stage only ever writes files; it removes nothing. -/
lemma audio_no_remove {c : Ctx} {fmt : String} {fuel : Nat} {a : AudioOutcome}
    (h : create_audio_track c fmt fuel = some a) (p : String) :
    FsEvent.remove p ∉ a.events := by
  unfold create_audio_track at h
  split at h
  · cases h; simp
  · split at h
    · exact absurd h (by simp)
    · split at h
      · cases h; simp
      · split at h
        · cases h; simp
        · cases h; simp

/-- The concrete environment cW is well formed. -/
lemma cWOk : CtxOk cW :=
  ⟨by decide, fun l => List.Perm.refl l⟩

/-- In cW every eligible file decodes to at least one crossfade. -/
lemma cW_allGood : AllGood cW := by
  intro f hf he
  simp only [cW, List.mem_cons, List.not_mem_nil, or_false] at hf
  rcases hf with rfl | rfl
  · exact ⟨400000, by decide, by decide⟩
  · exact absurd he (by decide)

/-- From its looping state, the always-failing environment steps back
to the very same state. -/
lemma loopStep_cBad_s1 : loopStep cBad s1Bad = StepRes.cont s1Bad := by decide

/-- The first step of the always-failing environment reaches the
looping state. -/
lemma loopStep_cBad_init : loopStep cBad (initState cBad) = StepRes.cont s1Bad := by decide

/-- No fuel suffices from the looping state of cBad. -/
lemma runLoop_cBad_s1_none : ∀ n, runLoop cBad n s1Bad = none := by
  intro n
  induction n with
  | zero => rfl
  | succ k ih =>
    rw [runLoop_succ, loopStep_cBad_s1]
    exact ih

/-- The audio loop of cBad never exits, whatever the fuel: the single
eligible file fails to decode every time, is never marked used, and is
restored by every refill. -/
lemma runLoop_cBad_never : ∀ fuel, runLoop cBad fuel (initState cBad) = none := by
  intro fuel
  cases fuel with
  | zero => rfl
  | succ k =>
    rw [runLoop_succ, loopStep_cBad_init]
    exact runLoop_cBad_s1_none k

/-- C1: within one run of the audio sequencer no asset is appended
twice: the used list, which records the successfully appended files in
append order, never holds a duplicate in any reachable state.  This is
stronger than the claim, which only demands distinctness while unused
alternatives remain. -/
theorem C1_no_premature_repeat (c : Ctx) (hOk : CtxOk c) (s : LoopState)
    (hr : Reaches c (initState c) s) : s.used.Nodup :=
  (reaches_inv hOk hr).usedNodup

/-- Witness for C1 at the concrete environment cW after one appending
step. -/
theorem C1_no_premature_repeat_witness : sW1.used.Nodup :=
  C1_no_premature_repeat cW cWOk sW1 (Reaches.step (Reaches.refl _) (by decide))

/-- C2 counterexample: with one eligible file that always fails to
decode, the loop reaches a state below the target that steps to itself,
and the run exhausts any fuel (shown here at fuel 30, and for every
fuel by runLoop_cBad_never, which this proof uses): the sequencing loop
of create_audio_track does not terminate on every finite directory. -/
theorem C2_counterexample_nontermination :
    s1Bad.totalDurationMs < targetMs ∧
    loopStep cBad s1Bad = StepRes.cont s1Bad ∧
    runLoop cBad 30 (initState cBad) = none :=
  ⟨by decide, loopStep_cBad_s1, runLoop_cBad_never 30⟩

/-- C2 amended: the running total is monotone non-decreasing across
iterations, and the loop terminates whenever every eligible file
decodes successfully with a duration of at least the 3000 ms crossfade
(a file that persistently fails to decode, or whose append always
fails the crossfade precondition, is popped, never marked used,
restored by the next refill, and retried forever, so termination fails
in general). -/
theorem C2_amended_monotone_and_termination (c : Ctx) (hOk : CtxOk c) (hg : AllGood c) :
    (∀ s s2, loopStep c s = StepRes.cont s2 → s.totalDurationMs ≤ s2.totalDurationMs) ∧
    ∃ s2, runLoop c ((c.dir.filter (fun f => isEligible f)).length + 1) (initState c)
      = some s2 := by
  refine ⟨fun s s2 h => total_mono h, ?_⟩
  have hcount : unusedCount c (initState c)
      ≤ (c.dir.filter (fun f => isEligible f)).length := by
    unfold unusedCount
    rw [show (initState c).used = ([] : List String) from rfl, refill_empty_used]
  exact runLoop_terminates hOk hg _ _ (inv_init hOk) (Or.inl rfl) hcount

/-- Witness for the amended C2 at the concrete environment cW. -/
theorem C2_amended_witness :
    (initState cW).totalDurationMs ≤ sW1.totalDurationMs ∧
    ∃ s2, runLoop cW ((cW.dir.filter (fun f => isEligible f)).length + 1) (initState cW)
      = some s2 := by
  have h := C2_amended_monotone_and_termination cW cWOk cW_allGood
  exact ⟨h.1 (initState cW) sW1 (by decide), h.2⟩

/-- C3 counterexample: a file whose decode raises is popped and the
loop continues, but it is NOT added to the used set, it reappears in
the next refilled pool, and it is popped (retried) again — against the
claim that it is added to the used set and never retried. -/
theorem C3_counterexample_failed_decode_retried :
    cBad.decode "bad.mp3" = none ∧
    loopStep cBad (initState cBad) = StepRes.cont s1Bad ∧
    "bad.mp3" ∉ s1Bad.used ∧
    effectivePool cBad s1Bad = ["bad.mp3"] ∧
    loopStep cBad s1Bad = StepRes.cont s1Bad :=
  ⟨rfl, by decide, by decide, by decide, by decide⟩

/-- C3 amended: on a decode failure the loop continues and the
iteration changes nothing but the pool (total, titles, used set and
buffer are untouched), and the failed asset, not being in the used set,
belongs to every refill pool computed from the resulting used set, so
it can be retried. -/
theorem C3_amended_decode_failure (c : Ctx) (s : LoopState) (f : String)
    (rest : List String)
    (hlt : s.totalDurationMs < targetMs)
    (hp : effectivePool c s = f :: rest)
    (hnu : f ∉ s.used)
    (hd : c.decode f = none) :
    loopStep c s = StepRes.cont { s with pool := rest } ∧
    (isEligible f = true → f ∈ c.dir → f ∈ refillList c s.used) := by
  constructor
  · have hpf : processFile c s f rest = { s with pool := rest } := by
      by_cases he : isEligible f = true
      · simp [processFile, hnu, he, hd]
      · simp [processFile, hnu, he]
    rw [loopStep_pop hlt hp, hpf]
  · intro he hdir
    exact mem_refill.mpr ⟨hdir, he, hnu⟩

/-- Witness for the amended C3 at the concrete environment cBad. -/
theorem C3_amended_witness :
    loopStep cBad (initState cBad) = StepRes.cont { initState cBad with pool := [] } ∧
    "bad.mp3" ∈ refillList cBad (initState cBad).used := by
  have h := C3_amended_decode_failure cBad (initState cBad) "bad.mp3" []
    (by decide) (by decide) (by decide) rfl
  exact ⟨h.1, h.2 (by decide) (by decide)⟩

/-- C4: a successful append advances the running total by the full
nominal duration of the segment; with a non-empty buffer the append
overlaps by the fixed 3000 ms crossfade, so the buffer grows by
strictly less than the bookkeeping increment; the first append (empty
buffer) uses no crossfade. -/
theorem C4_full_duration_bookkeeping (c : Ctx) (s : LoopState) (f : String)
    (rest : List String) (d : Nat)
    (hlt : s.totalDurationMs < targetMs) (hp : effectivePool c s = f :: rest)
    (hnu : f ∉ s.used) (he : isEligible f = true) (hd : c.decode f = some d) :
    (0 < s.combinedLen → crossfadeMs ≤ s.combinedLen → crossfadeMs ≤ d →
      loopStep c s
          = StepRes.cont (appendSuccess s f rest d (s.combinedLen + d - crossfadeMs)) ∧
      (appendSuccess s f rest d (s.combinedLen + d - crossfadeMs)).totalDurationMs
          = s.totalDurationMs + d ∧
      s.combinedLen + d - crossfadeMs < s.combinedLen + d) ∧
    (s.combinedLen = 0 →
      loopStep c s = StepRes.cont (appendSuccess s f rest d d) ∧
      (appendSuccess s f rest d d).totalDurationMs = s.totalDurationMs + d) := by
  have hstep : loopStep c s = StepRes.cont (processFile c s f rest) :=
    loopStep_pop hlt hp
  constructor
  · intro h0 h1 h2
    have hpf : processFile c s f rest
        = appendSuccess s f rest d (s.combinedLen + d - crossfadeMs) := by
      simp [processFile, hnu, he, hd, h0, h1, h2]
    refine ⟨by rw [hstep, hpf], rfl, ?_⟩
    have hc : (3000 : Nat) ≤ s.combinedLen := h1
    show s.combinedLen + d - 3000 < s.combinedLen + d
    omega
  · intro h0
    have h0x : ¬ 0 < s.combinedLen := by omega
    have hpf : processFile c s f rest = appendSuccess s f rest d d := by
      simp [processFile, hnu, he, hd, h0x]
    exact ⟨by rw [hstep, hpf], rfl⟩

/-- Witness for C4 at the concrete mid-run state sW4: a 4000 ms
segment advances the total by 4000 while the buffer grows by 1000. -/
theorem C4_full_duration_bookkeeping_witness :
    loopStep cW4 sW4
        = StepRes.cont (appendSuccess sW4 "b.wav" [] 4000
            (sW4.combinedLen + 4000 - crossfadeMs)) ∧
    (appendSuccess sW4 "b.wav" [] 4000
        (sW4.combinedLen + 4000 - crossfadeMs)).totalDurationMs
        = sW4.totalDurationMs + 4000 ∧
    sW4.combinedLen + 4000 - crossfadeMs < sW4.combinedLen + 4000 :=
  (C4_full_duration_bookkeeping cW4 sW4 "b.wav" [] 4000
    (by decide) (by decide) (by decide) (by decide) (by decide)).1
    (by decide) (by decide) (by decide)

/-- C5: in every reachable state the title list is exactly the
derived titles of the successfully appended files in append order (so
the counts agree), and the video loop performs exactly one iteration
per title while composing at most that many segments. -/
theorem C5_title_segment_parity (c : Ctx) (hOk : CtxOk c) (s : LoopState)
    (hr : Reaches c (initState c) s) :
    s.songTitles = s.used.map songTitle ∧
    s.songTitles.length = s.used.length ∧
    ∀ (v : VideoCtx) (clipFiles : List String),
      (videoLoopFrom v clipFiles 0 s.songTitles).1 = s.songTitles.length ∧
      (videoLoopFrom v clipFiles 0 s.songTitles).2.length ≤ s.songTitles.length := by
  have hinv := reaches_inv hOk hr
  refine ⟨hinv.titles, by rw [hinv.titles, List.length_map], ?_⟩
  intro v clipFiles
  exact videoLoopFrom_spec v clipFiles s.songTitles 0

/-- Witness for C5 at the concrete environment cW after one appending
step. -/
theorem C5_title_segment_parity_witness :
    sW1.songTitles.length = sW1.used.length ∧
    (videoLoopFrom vW (vW.clips.filter (fun f => isVideoEligible f)) 0 sW1.songTitles).1
      = sW1.songTitles.length := by
  have h := C5_title_segment_parity cW cWOk sW1 (Reaches.step (Reaches.refl _) (by decide))
  exact ⟨h.2.1, (h.2.2 vW (vW.clips.filter (fun f => isVideoEligible f))).1⟩

/-- C6 counterexample: audio and video stages succeed, the artifact
combined_audio.mp3 is created, the final render raises, and the run
exits with the artifact never removed — one exit path after artifact
creation that performs no deletion. -/
theorem C6_counterexample_encode_failure :
    generate_music_video gEncFail 3
      = some { events := [FsEvent.write "temp_combined_audio.wav",
                          FsEvent.write "combined_audio.mp3"],
               raised := true } ∧
    FsEvent.remove "combined_audio.mp3"
      ∉ [FsEvent.write "temp_combined_audio.wav", FsEvent.write "combined_audio.mp3"] :=
  ⟨by decide, by decide⟩

/-- C6 amended: after a successful audio stage the artifact is removed
on the caught video-stage ValueError path and on the successful final
render path, but an exception raised by the unguarded audio attach or
final render propagates and the artifact is not removed. -/
theorem C6_amended_cleanup (g : GenCtx) (fuel : Nat) (a : AudioOutcome)
    (s : LoopState) (path : String)
    (ha : create_audio_track g.audio g.fmt fuel = some a)
    (hres : a.result = AudioRes.ok s path) :
    (∀ m, create_video_track g.video s.songTitles = VideoRes.err m →
      generate_music_video g fuel
        = some { events := a.events ++ [FsEvent.remove path], raised := false } ∧
      FsEvent.remove path ∈ a.events ++ [FsEvent.remove path]) ∧
    (∀ segs, create_video_track g.video s.songTitles = VideoRes.ok segs →
      g.encodeOk = true →
      generate_music_video g fuel
        = some { events := a.events ++ [FsEvent.write g.outputFilename, FsEvent.remove path],
                 raised := false } ∧
      FsEvent.remove path
        ∈ a.events ++ [FsEvent.write g.outputFilename, FsEvent.remove path]) ∧
    (∀ segs, create_video_track g.video s.songTitles = VideoRes.ok segs →
      g.encodeOk = false →
      generate_music_video g fuel = some { events := a.events, raised := true } ∧
      FsEvent.remove path ∉ a.events) := by
  refine ⟨?_, ?_, ?_⟩
  · intro m hv
    refine ⟨?_, by simp⟩
    simp only [generate_music_video, ha, hres, hv]
  · intro segs hv henc
    refine ⟨?_, by simp⟩
    simp only [generate_music_video, ha, hres, hv, henc, if_true]
  · intro segs hv henc
    refine ⟨?_, audio_no_remove ha path⟩
    simp only [generate_music_video, ha, hres, hv, henc, Bool.false_eq_true, if_false]

/-- Witness for the amended C6: the successful-render path of the
concrete pipeline gGood removes the artifact. -/
theorem C6_amended_cleanup_witness :
    generate_music_video gGood 3
      = some { events := [FsEvent.write "temp_combined_audio.wav",
                          FsEvent.write "combined_audio.mp3"]
                 ++ [FsEvent.write gGood.outputFilename,
                     FsEvent.remove "combined_audio.mp3"],
               raised := false } ∧
    FsEvent.remove "combined_audio.mp3"
      ∈ [FsEvent.write "temp_combined_audio.wav", FsEvent.write "combined_audio.mp3"]
          ++ [FsEvent.write gGood.outputFilename, FsEvent.remove "combined_audio.mp3"] := by
  have h := C6_amended_cleanup gGood 3
    { result := AudioRes.ok sW1 "combined_audio.mp3",
      events := [FsEvent.write "temp_combined_audio.wav",
                 FsEvent.write "combined_audio.mp3"] }
    sW1 "combined_audio.mp3" (by decide) rfl
  exact h.2.1 [("c.mp4", "A")] (by decide) rfl

/-- C7: with zero eligible audio files, create_audio_track raises
before any filesystem effect, and generate_music_video catches the
error and returns having written and removed nothing. -/
theorem C7_empty_audio_catalog (g : GenCtx) (fuel : Nat)
    (h : g.audio.dir.filter (fun f => isEligible f) = []) :
    create_audio_track g.audio g.fmt fuel
      = some { result := AudioRes.err "no audio files", events := [] } ∧
    generate_music_video g fuel = some { events := [], raised := false } := by
  have h1 : create_audio_track g.audio g.fmt fuel
      = some { result := AudioRes.err "no audio files", events := [] } := by
    unfold create_audio_track
    rw [if_pos h]
  refine ⟨h1, ?_⟩
  simp only [generate_music_video, h1]

/-- Witness for C7 at the concrete pipeline gNoAudio. -/
theorem C7_empty_audio_catalog_witness :
    create_audio_track gNoAudio.audio gNoAudio.fmt 5
      = some { result := AudioRes.err "no audio files", events := [] } ∧
    generate_music_video gNoAudio 5 = some { events := [], raised := false } :=
  C7_empty_audio_catalog gNoAudio 5 (by decide)

/-- C8: song-title derivation is the pure function songTitle of the
filename alone (strip extension, underscores and hyphens to spaces,
title-case), the loop appends exactly songTitle of the appended file,
and the documented example holds. -/
theorem C8_song_title_derivation :
    songTitle "My_Song-1.wav" = "My Song 1" ∧
    ∀ (s : LoopState) (f : String) (rest : List String) (d nl : Nat),
      (appendSuccess s f rest d nl).songTitles = s.songTitles ++ [songTitle f] :=
  ⟨by decide, fun _ _ _ _ _ => rfl⟩

/-- C9: in every reachable state the defensive already-used branch has
never fired, and the next file the loop would pop is never already in
the used set. -/
theorem C9_defensive_skip_unreachable (c : Ctx) (hOk : CtxOk c) (s : LoopState)
    (hr : Reaches c (initState c) s) :
    s.skippedUsed = 0 ∧
    ∀ f rest, effectivePool c s = f :: rest → f ∉ s.used := by
  have hinv := reaches_inv hOk hr
  exact ⟨hinv.skipped,
    fun f rest hp => ((effectivePool_spec hOk hinv hp).2 f (List.mem_cons_self f rest)).2.2⟩

/-- Witness for C9 at the initial state of the concrete environment
cW. -/
theorem C9_defensive_skip_unreachable_witness :
    (initState cW).skippedUsed = 0 ∧ "a.wav" ∉ (initState cW).used := by
  have h := C9_defensive_skip_unreachable cW cWOk (initState cW) (Reaches.refl _)
  exact ⟨h.1, h.2 "a.wav" [] (by decide)⟩

/-- C10: for any output format other than mp3 and m4a, once the
sequencing loop has finished, create_audio_track raises ValueError
having already written the temporary debug WAV, and its event list is
exactly that write: no combined_audio artifact is created and the
debug file is never removed. -/
theorem C10_bad_format_after_temp_export (c : Ctx) (fmt : String) (fuel : Nat)
    (s : LoopState)
    (h1 : fmt ≠ "mp3") (h2 : fmt ≠ "m4a")
    (h3 : ¬ c.dir.filter (fun f => isEligible f) = [])
    (h4 : runLoop c fuel (initState c) = some s) :
    create_audio_track c fmt fuel
      = some { result := AudioRes.err "unsupported format",
               events := [FsEvent.write "temp_combined_audio.wav"] } := by
  unfold create_audio_track
  rw [if_neg h3, h4]
  simp [h1, h2]

/-- Witness for C10 at the concrete environment cW with format ogg. -/
theorem C10_bad_format_after_temp_export_witness :
    create_audio_track cW "ogg" 3
      = some { result := AudioRes.err "unsupported format",
               events := [FsEvent.write "temp_combined_audio.wav"] } :=
  C10_bad_format_after_temp_export cW "ogg" 3 sW1
    (by decide) (by decide) (by decide) (by decide)
